import Mathlib

/-!
# Verification of the nutrition resolution pipeline

Shallow embedding of `models/new_nutrition_pipeline.py` (class `NutritionPipeline`).
Python floats are modelled as rationals (`ℚ`), `round(x, 2)` as exact round-half-to-even
on rationals, and dictionaries as ordered association lists (Python dictionaries preserve
insertion order, which the substring-matching scans depend on).  External collaborators
(the USDA lookup, the NER/LLM extractors, the recipe database and the LLM recipe
generator) are passed in as oracle functions, mirroring how the class calls out to them.
Ingredient strings are assumed to contain no newline character ('\n'), so that the
regex `.`/`$` subtleties of `re` do not arise; every input considered here is a
single line.
-/

attribute [local semireducible] Rat.add Rat.mul Rat.sub Rat.inv Rat.ofScientific

namespace NutritionPipeline

/-! ## Python string primitives -/

/-- Python `str.lower` restricted to ASCII (all table keys and inputs used are ASCII). -/
def pyLower (s : String) : String := String.mk (s.toList.map Char.toLower)

/-- Python `str.strip`: remove leading and trailing whitespace. -/
def pyStripList (cs : List Char) : List Char :=
  ((cs.dropWhile Char.isWhitespace).reverse.dropWhile Char.isWhitespace).reverse

def pyStrip (s : String) : String := String.mk (pyStripList s.toList)

/-- `pat` occurs as a contiguous sublist of `hay` (Python `pat in hay` on strings). -/
def listContainsSub (hay pat : List Char) : Bool :=
  (List.range (hay.length + 1)).any (fun i => pat.isPrefixOf (hay.drop i))

/-- Python `pat in s` substring test. -/
def strContains (s pat : String) : Bool := listContainsSub s.toList pat.toList

/-- Python `str.rstrip("s")`: remove trailing `'s'` characters. -/
def pyRstripS (s : String) : String :=
  String.mk ((s.toList.reverse.dropWhile (fun c => c == 's')).reverse)

/-! ## Rounding

Python's `round(x, 2)` rounds half to even.  On rationals this is exact. -/

/-- Round half to even to the nearest integer. -/
def roundHE (q : ℚ) : ℤ :=
  if q - (⌊q⌋ : ℚ) < 1/2 then ⌊q⌋
  else if 1/2 < q - (⌊q⌋ : ℚ) then ⌊q⌋ + 1
  else if ⌊q⌋ % 2 = 0 then ⌊q⌋ else ⌊q⌋ + 1

/-- Python `round(x, 2)`. -/
def round2 (q : ℚ) : ℚ := ((roundHE (q * 100) : ℤ) : ℚ) / 100

/-! ## Data model -/

/-- The four-field nutrition record returned by `get_food_nutrition`. -/
structure Nutrition where
  calories : ℚ
  protein : ℚ
  fat : ℚ
  carbs : ℚ
  deriving DecidableEq, Repr

/-- Result of `USDAFoodLookup.search_food` when it returns data: per-100g values
(each `nutrients.get(_, 0)` default is already folded in as the field value). -/
structure UsdaData where
  calories : ℚ
  protein : ℚ
  fat : ℚ
  carbs : ℚ
  deriving DecidableEq, Repr

/-- `self.standard_nutrition`: insertion-ordered table of per-100g/ml values. -/
def standard_nutrition : List (String × Nutrition) :=
  [ ("coke", ⟨75/2, 0, 0, 53/5⟩),
    ("cola", ⟨75/2, 0, 0, 53/5⟩),
    ("coca-cola", ⟨75/2, 0, 0, 53/5⟩),
    ("pepsi", ⟨41, 0, 0, 11⟩),
    ("ice", ⟨0, 0, 0, 0⟩),
    ("water", ⟨0, 0, 0, 0⟩),
    ("mac and cheese", ⟨164, 17/2, 63/10, 89/5⟩),
    ("macaroni and cheese", ⟨164, 17/2, 63/10, 89/5⟩),
    ("mac & cheese", ⟨164, 17/2, 63/10, 89/5⟩),
    ("chicken", ⟨165, 31, 18/5, 0⟩),
    ("beef", ⟨250, 26, 17, 0⟩),
    ("fish", ⟨136, 20, 5, 0⟩),
    ("rice", ⟨130, 27/10, 3/10, 28⟩),
    ("pasta", ⟨131, 5, 11/10, 25⟩),
    ("bread", ⟨265, 9, 16/5, 49⟩) ]

/-- `self.portion_sizes`. -/
def portion_sizes : List (String × ℚ) :=
  [("cup", 240), ("tablespoon", 15), ("teaspoon", 5),
   ("slice", 30), ("piece", 50), ("serving", 250)]

/-- `self.portion_sizes.get(unit.rstrip("s"), 30)`. -/
def portion_of (u : String) : ℚ :=
  ((portion_sizes.find? (fun kv => kv.1 == u)).map Prod.snd).getD 30

/-! ## `convert_to_grams` -/

def convert_to_grams (qty : ℚ) (unit : String) : ℚ :=
  let unit := pyLower unit
  if unit ∈ ["g", "gram", "grams"] then qty
  else if unit ∈ ["kg", "kilogram", "kilograms"] then qty * 1000
  else if unit ∈ ["oz", "ounce", "ounces"] then qty * (567/20)
  else if unit ∈ ["lb", "pound", "pounds"] then qty * (56699/125)
  else if unit ∈ ["cup", "cups"] then qty * 240
  else if unit ∈ ["tbsp", "tablespoon", "tablespoons"] then qty * 15
  else if unit ∈ ["tsp", "teaspoon", "teaspoons"] then qty * 5
  else if unit ∈ ["ml", "milliliter"] then qty
  else if unit ∈ ["piece", "pieces", "slice", "slices"] then qty * portion_of (pyRstripS unit)
  else qty

/-! ## `parse_ingredient`

The regex is `^([\d\/\.\s]+)([a-zA-Z]+)?\s+(.*)$` matched with Python backtracking
semantics on a stripped single-line input: group 1 (greedy) is tried from the longest
prefix over the class `[\d\/\.\s]` downwards; for a fixed group 1 only the full
letter run (or the absent group) can be followed by the mandatory whitespace;
`\s+` then takes the maximal whitespace run and `.*$` the rest. -/

def isNumClassChar (c : Char) : Bool := c.isDigit || c == '/' || c == '.' || c.isWhitespace

def isAsciiAlpha (c : Char) : Bool :=
  (97 ≤ c.toNat && c.toNat ≤ 122) || (65 ≤ c.toNat && c.toNat ≤ 90)

def headWS : List Char → Bool
  | [] => false
  | c :: _ => c.isWhitespace

/-- Backtracking search for the regex match, trying group-1 length `n, n-1, …, 1`.
Returns `(group1, group2, group3)` where group 3 already has the `\s+` run removed. -/
def regexTry (cs : List Char) : Nat → Option (List Char × List Char × List Char)
  | 0 => none
  | n + 1 =>
    if (cs.take (n + 1)).all isNumClassChar then
      let rest := cs.drop (n + 1)
      let bRun := rest.takeWhile isAsciiAlpha
      if decide (bRun ≠ []) && headWS (rest.drop bRun.length) then
        some (cs.take (n + 1), bRun, (rest.drop bRun.length).dropWhile Char.isWhitespace)
      else if headWS rest then
        some (cs.take (n + 1), [], rest.dropWhile Char.isWhitespace)
      else regexTry cs n
    else regexTry cs n

/-- Python `str.split()`: split on whitespace runs, discarding empty tokens. -/
def splitWsAux : List Char → List Char → List (List Char)
  | [], acc => if acc.isEmpty then [] else [acc.reverse]
  | c :: rest, acc =>
    if c.isWhitespace then
      if acc.isEmpty then splitWsAux rest [] else acc.reverse :: splitWsAux rest []
    else splitWsAux rest (c :: acc)

def splitWs (cs : List Char) : List (List Char) := splitWsAux cs []

/-- Python `str.split(sep)` for a single-character separator (keeps empty pieces). -/
def splitOnCharAux (sep : Char) : List Char → List Char → List (List Char)
  | [], acc => [acc.reverse]
  | c :: rest, acc =>
    if c == sep then acc.reverse :: splitOnCharAux sep rest []
    else splitOnCharAux sep rest (c :: acc)

def splitOnChar (sep : Char) (cs : List Char) : List (List Char) := splitOnCharAux sep cs []

def digitsToNat (ds : List Char) : ℕ := ds.foldl (fun acc c => acc * 10 + (c.toNat - 48)) 0

/-- Python `float(tok)` on a token drawn from the class `[\d\/\.]` (no whitespace):
succeeds on `\d+`, `\d*.\d*` with at least one digit; anything else raises
(modelled as `none`). -/
def parseFloatTok (t : List Char) : Option ℚ :=
  if t.all (fun c => c.isDigit) then
    if t.isEmpty then none else some (digitsToNat t : ℚ)
  else
    match splitOnChar '.' t with
    | [a, b] =>
      if a.all (fun c => c.isDigit) && b.all (fun c => c.isDigit)
          && decide (a ≠ [] ∨ b ≠ []) then
        some ((digitsToNat a : ℚ) + (digitsToNat b : ℚ) / (10 : ℚ) ^ b.length)
      else none
    | _ => none

/-- Contribution of one whitespace-separated token of the numeric segment:
`a/b` is parsed as a fraction, any failure (bad float, `a/b/c`, division by
zero) contributes `1.0`. -/
def tokenQty (t : List Char) : ℚ :=
  if t.contains '/' then
    match splitOnChar '/' t with
    | [a, b] =>
      match parseFloatTok a, parseFloatTok b with
      | some x, some y => if y = 0 then 1 else x / y
      | _, _ => 1
    | _ => 1
  else (parseFloatTok t).getD 1

/-- `parse_ingredient`: returns `(quantity, unit, food name)`. -/
def parse_ingredient (s : String) : ℚ × String × String :=
  let cs := pyStripList s.toList
  match regexTry cs cs.length with
  | some (g1, g2, g3) =>
    ((splitWs g1).foldl (fun acc t => acc + tokenQty t) 0,
     String.mk (g2.map Char.toLower),
     pyStrip (pyLower (String.mk g3)))
  | none => (1, "", pyLower s)

/-! ## Category classification and plausibility tables -/

/-- `_identify_food_category`. -/
def identify_food_category (food_name : String) (calories_per_100g : ℚ) : String :=
  let food := pyLower food_name
  if ["chicken", "beef", "pork", "fish", "meat", "turkey"].any (fun w => strContains food w) then "meat"
  else if ["rice", "pasta", "noodle", "bread", "cereal", "grain"].any (fun w => strContains food w) then "grain"
  else if ["vegetable", "carrot", "broccoli", "spinach", "lettuce"].any (fun w => strContains food w) then "vegetable"
  else if ["fruit", "apple", "orange", "banana", "berry"].any (fun w => strContains food w) then "fruit"
  else if ["milk", "cheese", "yogurt", "cream", "dairy"].any (fun w => strContains food w) then "dairy"
  else if ["oil", "butter", "margarine", "lard"].any (fun w => strContains food w) then "oil"
  else if ["drink", "beverage", "water", "juice", "soda", "coke", "cola"].any (fun w => strContains food w) then "beverage"
  else if calories_per_100g > 800 then "oil"
  else if calories_per_100g > 300 then "meat"
  else if calories_per_100g > 200 then "grain"
  else if calories_per_100g < 30 then "vegetable"
  else "unknown"

/-- `_get_reasonable_max_factor` (the `max_factors` dictionary with default 10). -/
def max_factors : List (String × ℚ) :=
  [("meat", 5), ("grain", 8), ("vegetable", 10), ("fruit", 6),
   ("dairy", 8), ("oil", 2), ("beverage", 15), ("unknown", 10)]

def get_reasonable_max_factor (food_category : String) : ℚ :=
  ((max_factors.find? (fun kv => kv.1 == food_category)).map Prod.snd).getD 10

/-- `reasonable_calorie_ranges` with default `("unknown", (50, 300))`. -/
def reasonable_calorie_ranges : List (String × (ℚ × ℚ)) :=
  [("meat", (100, 300)), ("grain", (100, 200)), ("vegetable", (20, 80)),
   ("fruit", (40, 100)), ("dairy", (50, 400)), ("oil", (800, 900)),
   ("beverage", (0, 50)), ("unknown", (50, 300))]

def calorie_range_of (food_category : String) : ℚ × ℚ :=
  ((reasonable_calorie_ranges.find? (fun kv => kv.1 == food_category)).map Prod.snd).getD (50, 300)

/-! ## `get_food_nutrition` -/

/-- Condition of the `standard_nutrition` scan: `key == food or key in food or food in key`. -/
def std_match (key food : String) : Bool :=
  key == food || strContains food key || strContains key food

/-- The first matching entry of the insertion-ordered `standard_nutrition` scan. -/
def findStd (food : String) : Option (String × Nutrition) :=
  standard_nutrition.find? (fun kv => std_match kv.1 food)

/-- The ice alias list that short-circuits to all-zero values. -/
def ice_aliases : List String := ["ice", "ice cube", "ice cubes", "冰", "冰块"]

/-- `_generic_nutrition_estimate`. -/
def generic_nutrition_estimate (food_name : String) (factor : ℚ) : Nutrition :=
  let food := pyLower food_name
  let base : ℚ × ℚ × ℚ × ℚ :=
    if ["chicken", "beef", "pork", "fish", "meat"].any (fun w => strContains food w) then (180, 25, 10, 0)
    else if ["rice", "pasta", "noodle", "bread"].any (fun w => strContains food w) then (130, 4, 1, 25)
    else if ["vegetable", "carrot", "broccoli", "spinach"].any (fun w => strContains food w) then (30, 2, 3/10, 6)
    else if ["fruit", "apple", "orange", "banana"].any (fun w => strContains food w) then (60, 4/5, 1/5, 15)
    else if ["cheese", "milk", "yogurt", "cream", "dairy"].any (fun w => strContains food w) then (130, 7, 9, 5)
    else (100, 5, 5, 10)
  let rf := min factor 8
  ⟨round2 (base.1 * rf), round2 (base.2.1 * rf), round2 (base.2.2.1 * rf), round2 (base.2.2.2 * rf)⟩

/-- The effective scaling factor applied to a `standard_nutrition` match
(the cola / mac-and-cheese special cases of the scan body). -/
def std_factor (food : String) (unit : String) (factor : ℚ) : ℚ :=
  if strContains food "cola" || strContains food "coke" then
    let f := if unit = "" then (33/10 : ℚ) else factor
    if f > 10 then min f 10 else f
  else if strContains food "mac" && strContains food "cheese" then
    if unit = "" then (5/2 : ℚ) else factor
  else factor

/-- `get_food_nutrition(food_name, amount, unit)`, with the USDA lookup passed
as an oracle `usda`. -/
def get_food_nutrition (usda : String → Option UsdaData)
    (food_name : String) (amount : ℚ := 1) (unit : String := "") : Nutrition :=
  let food := pyStrip (pyLower food_name)
  if food ∈ ice_aliases then ⟨0, 0, 0, 0⟩
  else
    let grams := if unit ≠ "" then convert_to_grams amount unit else amount * 100
    let factor := grams / 100
    match findStd food with
    | some (_, std) =>
      let f := std_factor food unit factor
      ⟨round2 (std.calories * f), round2 (std.protein * f),
       round2 (std.fat * f), round2 (std.carbs * f)⟩
    | none =>
      match usda food with
      | some d =>
        let cat := identify_food_category food d.calories
        let range := calorie_range_of cat
        if d.calories < range.1 * (1/2) ∨ d.calories > range.2 * 2 then
          let adjusted := (range.1 + range.2) / 2
          let adjScale := adjusted / max d.calories 1
          ⟨round2 (adjusted * factor), round2 (d.protein * adjScale * factor),
           round2 (d.fat * adjScale * factor), round2 (d.carbs * adjScale * factor)⟩
        else
          let rf := min factor (get_reasonable_max_factor cat)
          ⟨round2 (d.calories * rf), round2 (d.protein * rf),
           round2 (d.fat * rf), round2 (d.carbs * rf)⟩
      | none => generic_nutrition_estimate food factor

/-! ## `_analyze_ingredients_list` -/

/-- One row of the per-ingredient breakdown (`details` entries; `"type": "dish"` and
`"single"` items share this shape). -/
structure Detail where
  food_name : String
  quantity : ℚ
  unit : String
  calories : ℚ
  protein : ℚ
  fat : ℚ
  carbs : ℚ
  deriving DecidableEq, Repr

/-- Result of `_analyze_ingredients_list` (the `"type": "dish"` dictionary). -/
structure DishResult where
  dish_name : String
  ingredients : List Detail
  total_nutrition : Nutrition
  deriving DecidableEq, Repr

/-- The row built for one ingredient string inside the loop of
`_analyze_ingredients_list`. -/
def ingredient_detail (usda : String → Option UsdaData) (ing : String) : Detail :=
  let p := parse_ingredient ing
  let n := get_food_nutrition usda p.2.2 p.1 p.2.1
  ⟨p.2.2, round2 p.1, p.2.1, n.calories, n.protein, n.fat, n.carbs⟩

/-- Dish-specific default portion factor of the known-dish bypass. -/
def dish_portion (dnl : String) : ℚ :=
  if strContains dnl "mac" && strContains dnl "cheese" then 3
  else if strContains dnl "curry" then 4
  else if strContains dnl "coke" || strContains dnl "cola" then 33/10
  else 5/2

/-- The dish-type calorie ceiling (`reasonable_upper_limit`). -/
def reasonable_upper_limit (dnl : String) : ℚ :=
  if strContains dnl "curry" then 900
  else if strContains dnl "mac" && strContains dnl "cheese" then 700
  else if strContains dnl "salad" then 500
  else if strContains dnl "soup" then 400
  else 1200

/-- Uniform rescaling of one breakdown row (the `item[...] *= adjustment_factor` loop;
no re-rounding is applied). -/
def scaleDetail (a : ℚ) (d : Detail) : Detail :=
  { d with calories := d.calories * a, protein := d.protein * a,
           fat := d.fat * a, carbs := d.carbs * a }

def sumCalories (ds : List Detail) : ℚ := (ds.map (fun d => d.calories)).sum
def sumProtein (ds : List Detail) : ℚ := (ds.map (fun d => d.protein)).sum
def sumFat (ds : List Detail) : ℚ := (ds.map (fun d => d.fat)).sum
def sumCarbs (ds : List Detail) : ℚ := (ds.map (fun d => d.carbs)).sum

/-- `_analyze_ingredients_list(ing_list, dish_name)`. -/
def analyze_ingredients_list (usda : String → Option UsdaData)
    (ing_list : List String) (dish_name : String := "Standard Recipe") : DishResult :=
  let dnl := pyLower dish_name
  match findStd dnl with
  | some (key, std) =>
    let portion := dish_portion dnl
    let n : Nutrition := ⟨round2 (std.calories * portion), round2 (std.protein * portion),
                          round2 (std.fat * portion), round2 (std.carbs * portion)⟩
    { dish_name := dish_name,
      ingredients := [⟨key, 1, "serving", n.calories, n.protein, n.fat, n.carbs⟩],
      total_nutrition := n }
  | none =>
    let details := ing_list.map (ingredient_detail usda)
    let tc := sumCalories details
    let limit := reasonable_upper_limit dnl
    if tc > limit * 2 then
      let adj := limit / tc
      { dish_name := dish_name,
        ingredients := details.map (scaleDetail adj),
        total_nutrition := ⟨round2 limit, round2 (sumProtein details * adj),
                            round2 (sumFat details * adj), round2 (sumCarbs details * adj)⟩ }
    else
      { dish_name := dish_name,
        ingredients := details,
        total_nutrition := ⟨round2 tc, round2 (sumProtein details),
                            round2 (sumFat details), round2 (sumCarbs details)⟩ }

/-! ## `process_text` (MealAnalyzer) -/

/-- A `{food, quantity}` item as produced by the extraction collaborators
(a failed `float(f["quantity"])` coercion is already folded to `1.0` upstream). -/
structure OtherFood where
  food : String
  quantity : ℚ
  deriving DecidableEq, Repr

/-- An element of `dishes_found`. -/
structure DishEntry where
  dish_name : String
  ingredients : List String
  source : String
  deriving DecidableEq, Repr

/-- The shapes `process_text` / `_process_multiple` can return
(`nores` is the Python `None` returned when nothing is extracted). -/
inductive MealResult where
  | nores
  | single (item : Detail)
  | multiple (items : List Detail) (total : Nutrition)
  | dish (d : DishEntry)
  | combined (dishes : List DishEntry) (others : List OtherFood)
  deriving DecidableEq, Repr

inductive Method where
  | llm | ner | hybrid
  deriving DecidableEq, Repr

/-- The external collaborators of `NutritionPipeline`, as oracles:
NER and LLM food extraction, NER entity cleanup, `extract_dish_names`'s output,
the recipes database, the LLM recipe generator and the USDA lookup. -/
structure Extractors where
  method : Method
  nerFoods : String → List OtherFood
  llmFoods : String → List OtherFood
  cleanEntity : String → String
  dishNames : String → List String
  dbRecipe : String → Option (String × List String)
  llmRecipe : String → List String
  usda : String → Option UsdaData

def common_dish_keywords : List String :=
  ["soup", "salad", "pizza", "burger", "sandwich", "stew", "curry",
   "cake", "pie", "pasta", "noodles", "omelet", "dumpling", "fried",
   "steak", "fries", "gratin", "casserole", "bake", "coke", "tea", "coffee"]

def is_probably_dish (text : String) : Bool :=
  let name := pyLower text
  strContains name " " || common_dish_keywords.any (fun kw => strContains name kw)

def main_keywords : List String :=
  ["chicken", "beef", "pork", "fish", "egg", "shrimp", "rice", "noodles", "pasta",
   "milk", "tomato", "cheese", "penne", "turkey", "sausage", "coke", "coffee", "tea"]

def sub_keywords : List String :=
  ["salt", "pepper", "oil", "garlic", "onion", "butter", "sugar", "cream", "flour",
   "vinegar", "powder", "seasoning", "herbs", "spice", "sauce", "chilies"]

/-- `classify_ingredients`: (main, secondary), both in input order. -/
def classify_ingredients (ing_list : List String) : List String × List String :=
  (ing_list.filter (fun ing =>
     main_keywords.any (fun k => strContains (pyLower ing) k)
     || !(sub_keywords.any (fun k => strContains (pyLower ing) k))),
   ing_list.filter (fun ing =>
     !(main_keywords.any (fun k => strContains (pyLower ing) k))
     && sub_keywords.any (fun k => strContains (pyLower ing) k)))

/-- `_merge_ner_llm`'s dictionary update `merged[fd] = max(merged.get(fd, 0), q)`,
preserving first-insertion order. -/
def upsertMax (acc : List OtherFood) (fd : String) (q : ℚ) : List OtherFood :=
  if acc.any (fun x => x.food == fd) then
    acc.map (fun x => if x.food == fd then { x with quantity := max x.quantity q } else x)
  else acc ++ [⟨fd, max 0 q⟩]

def merge_ner_llm (ner llm : List OtherFood) : List OtherFood :=
  (ner ++ llm).foldl (fun acc x => upsertMax acc (pyStrip (pyLower x.food)) x.quantity) []

/-- `_process_multiple`. -/
def process_multiple (E : Extractors) (text : String) : MealResult :=
  let extracted :=
    match E.method with
    | .llm => E.llmFoods text
    | .ner => E.nerFoods text
    | .hybrid => merge_ner_llm (E.nerFoods text) (E.llmFoods text)
  let extracted :=
    if E.method ≠ .llm then
      extracted.map (fun f => { f with food := E.cleanEntity f.food })
    else extracted
  match extracted with
  | [] => .nores
  | [f] =>
    let n := get_food_nutrition E.usda f.food f.quantity ""
    .single ⟨f.food, f.quantity, "", n.calories, n.protein, n.fat, n.carbs⟩
  | fs =>
    let details := fs.map (fun f =>
      let n := get_food_nutrition E.usda f.food f.quantity ""
      (⟨f.food, f.quantity, "", n.calories, n.protein, n.fat, n.carbs⟩ : Detail))
    .multiple details
      ⟨round2 (sumCalories details), round2 (sumProtein details),
       round2 (sumFat details), round2 (sumCarbs details)⟩

/-- The LLM-recipe fallback of the per-dish-name loop of `process_text`. -/
def llmStep (E : Extractors) (acc : List DishEntry × List OtherFood) (dn : String) :
    List DishEntry × List OtherFood :=
  match E.llmRecipe dn with
  | [] => (acc.1, acc.2 ++ [⟨dn, 1⟩])
  | ings =>
    let ms := classify_ingredients ings
    (acc.1 ++ [⟨dn, ms.1 ++ ms.2, "llm"⟩], acc.2)

/-- One iteration of the per-dish-name loop of `process_text`. -/
def dishStep (E : Extractors) (acc : List DishEntry × List OtherFood) (dn : String) :
    List DishEntry × List OtherFood :=
  if is_probably_dish dn then
    match E.dbRecipe dn with
    | some (title, ings) =>
      if ings.isEmpty then llmStep E acc dn
      else
        let ms := classify_ingredients ings
        (acc.1 ++ [⟨if title = "" then dn else title, ms.1 ++ ms.2, "database"⟩], acc.2)
    | none => llmStep E acc dn
  else (acc.1, acc.2 ++ [⟨dn, 1⟩])

/-- One item of the secondary NER extraction pass: the item is skipped when its
lower-cased name occurs inside an identified dish name, or exactly equals the
stored name of an item already in `other_foods`; otherwise the raw item is
appended. -/
def ner_dedup_step (dishes : List DishEntry) (os : List OtherFood) (f : OtherFood) :
    List OtherFood :=
  if dishes.any (fun dd => strContains dd.dish_name (pyLower f.food)) then os
  else if os.any (fun x => pyLower f.food == x.food) then os
  else os ++ [f]

/-- The secondary NER extraction pass (the `for food in extracted_foods` loop). -/
def ner_dedup_pass (dishes : List DishEntry) (others : List OtherFood)
    (foods : List OtherFood) : List OtherFood :=
  foods.foldl (ner_dedup_step dishes) others

/-- `process_text(text, use_standard_recipe)`. -/
def process_text (E : Extractors) (text : String)
    (use_standard_recipe : Bool := true) : MealResult :=
  let dish_names := E.dishNames text
  if dish_names.isEmpty || !use_standard_recipe then process_multiple E text
  else
    let acc := dish_names.foldl (dishStep E) ([], [])
    let others :=
      if E.method ≠ .llm then ner_dedup_pass acc.1 acc.2 (E.nerFoods text)
      else acc.2
    match acc.1, others with
    | [], [] => process_multiple E text
    | [d], [] => .dish d
    | ds, os => .combined ds os

/-! ## Basic lemmas about rounding -/

theorem roundHE_intCast (n : ℤ) : roundHE (n : ℚ) = n := by
  simp [roundHE]

theorem roundHE_nonneg {q : ℚ} (h : 0 ≤ q) : 0 ≤ roundHE q := by
  unfold roundHE
  have hf : (0 : ℤ) ≤ ⌊q⌋ := by
    rw [Int.le_floor]; exact_mod_cast h
  split_ifs <;> omega

theorem round2_nonneg {q : ℚ} (h : 0 ≤ q) : 0 ≤ round2 q := by
  unfold round2
  have := roundHE_nonneg (q := q * 100) (by positivity)
  positivity

theorem round2_zero : round2 0 = 0 := by decide

theorem round2_div100 (n : ℤ) : round2 ((n : ℚ) / 100) = (n : ℚ) / 100 := by
  unfold round2
  rw [div_mul_cancel₀ _ (by norm_num : (100 : ℚ) ≠ 0), roundHE_intCast]

/-- Every value produced by `round2` has denominator dividing 100. -/
theorem round2_eq_div100 (q : ℚ) : ∃ n : ℤ, round2 q = (n : ℚ) / 100 :=
  ⟨roundHE (q * 100), rfl⟩

theorem round2_idem (q : ℚ) : round2 (round2 q) = round2 q := by
  obtain ⟨n, hn⟩ := round2_eq_div100 q
  rw [hn, round2_div100]

/-! ## Basic lemmas about the substring test -/

theorem isPrefixOf_iff_append {l₁ l₂ : List Char} :
    l₁.isPrefixOf l₂ = true ↔ ∃ t, l₁ ++ t = l₂ := by
  induction l₁ generalizing l₂ with
  | nil => simp [List.isPrefixOf]
  | cons a as ih =>
    cases l₂ with
    | nil => simp [List.isPrefixOf]
    | cons b bs =>
      simp only [List.isPrefixOf, Bool.and_eq_true, beq_iff_eq, ih, List.cons_append,
        List.cons.injEq]
      constructor
      · rintro ⟨rfl, t, rfl⟩
        exact ⟨t, rfl, rfl⟩
      · rintro ⟨t, rfl, rfl⟩
        exact ⟨rfl, t, rfl⟩

theorem listContainsSub_iff (hay pat : List Char) :
    listContainsSub hay pat = true ↔ ∃ s t, s ++ pat ++ t = hay := by
  unfold listContainsSub
  rw [List.any_eq_true]
  constructor
  · rintro ⟨i, _, hp⟩
    rw [isPrefixOf_iff_append] at hp
    obtain ⟨t, ht⟩ := hp
    exact ⟨hay.take i, t, by rw [List.append_assoc, ht, List.take_append_drop]⟩
  · rintro ⟨s, t, rfl⟩
    refine ⟨s.length, ?_, ?_⟩
    · rw [List.mem_range]
      simp [List.length_append]
      omega
    · rw [isPrefixOf_iff_append, List.append_assoc, List.drop_left]
      exact ⟨t, rfl⟩

theorem strContains_trans {a b c : String} (hab : strContains a b = true)
    (hbc : strContains b c = true) : strContains a c = true := by
  rw [strContains, listContainsSub_iff] at *
  obtain ⟨s1, t1, h1⟩ := hab
  obtain ⟨s2, t2, h2⟩ := hbc
  refine ⟨s1 ++ s2, t2 ++ t1, ?_⟩
  rw [← h1, ← h2]
  simp [List.append_assoc]

theorem strContains_self (s : String) : strContains s s = true := by
  rw [strContains, listContainsSub_iff]
  exact ⟨[], [], by simp⟩

/-! ## Lemmas about the static tables -/

theorem portion_of_pos (u : String) : 0 < portion_of u := by
  unfold portion_of
  cases h : portion_sizes.find? (fun kv => kv.1 == u) with
  | none => norm_num
  | some kv =>
    have hm := List.mem_of_find?_eq_some h
    have : ∀ kv ∈ portion_sizes, (0 : ℚ) < kv.2 := by decide
    simpa using this kv hm

theorem max_factor_pos (c : String) : 0 < get_reasonable_max_factor c := by
  unfold get_reasonable_max_factor
  cases h : max_factors.find? (fun kv => kv.1 == c) with
  | none => norm_num
  | some kv =>
    have hm := List.mem_of_find?_eq_some h
    have : ∀ kv ∈ max_factors, (0 : ℚ) < kv.2 := by decide
    simpa using this kv hm

theorem calorie_range_nonneg (c : String) :
    0 ≤ (calorie_range_of c).1 ∧ 0 ≤ (calorie_range_of c).2 := by
  unfold calorie_range_of
  cases h : reasonable_calorie_ranges.find? (fun kv => kv.1 == c) with
  | none => norm_num
  | some kv =>
    have hm := List.mem_of_find?_eq_some h
    have : ∀ kv ∈ reasonable_calorie_ranges, (0 : ℚ) ≤ kv.2.1 ∧ (0 : ℚ) ≤ kv.2.2 := by decide
    simpa using this kv hm

theorem standard_nutrition_nonneg :
    ∀ kv ∈ standard_nutrition, (0 : ℚ) ≤ kv.2.calories ∧ (0 : ℚ) ≤ kv.2.protein ∧
      (0 : ℚ) ≤ kv.2.fat ∧ (0 : ℚ) ≤ kv.2.carbs := by decide

theorem convert_to_grams_nonneg {q : ℚ} (h : 0 ≤ q) (u : String) :
    0 ≤ convert_to_grams q u := by
  have hp := portion_of_pos (pyRstripS (pyLower u))
  simp only [convert_to_grams]
  split_ifs <;> first
    | assumption
    | · apply mul_nonneg h; norm_num
    | exact mul_nonneg h hp.le

/-! ## Lemmas about the numeric-token parser -/

theorem parseFloatTok_nonneg {t : List Char} {q : ℚ} (h : parseFloatTok t = some q) :
    0 ≤ q := by
  unfold parseFloatTok at h
  split_ifs at h with h1 h2
  · injection h with h
    subst h
    exact Nat.cast_nonneg _
  · split at h
    · split_ifs at h
      injection h with h
      subst h
      exact add_nonneg (Nat.cast_nonneg _)
        (div_nonneg (Nat.cast_nonneg _) (by positivity))
    · cases h

theorem tokenQty_nonneg (t : List Char) : 0 ≤ tokenQty t := by
  unfold tokenQty
  split_ifs with h1
  · split
    · rename_i a b _
      cases ha : parseFloatTok a with
      | none => simp [ha]
      | some x =>
        cases hb : parseFloatTok b with
        | none => simp [ha, hb]
        | some y =>
          simp only [ha, hb]
          split_ifs with hy
          · norm_num
          · exact div_nonneg (parseFloatTok_nonneg ha) (parseFloatTok_nonneg hb)
    · norm_num
  · cases ht : parseFloatTok t with
    | none => simp [ht]
    | some x => simpa [ht] using parseFloatTok_nonneg ht

theorem foldl_add_tokenQty_nonneg (l : List (List Char)) (init : ℚ) (h : 0 ≤ init) :
    0 ≤ l.foldl (fun acc t => acc + tokenQty t) init := by
  induction l generalizing init with
  | nil => exact h
  | cons t rest ih => exact ih _ (add_nonneg h (tokenQty_nonneg t))

/-! ## Claims C7 and C8 -/

/-- The unit vocabulary recognized by `convert_to_grams`. -/
def supported_units : List String :=
  ["g", "gram", "grams", "kg", "kilogram", "kilograms", "oz", "ounce", "ounces",
   "lb", "pound", "pounds", "cup", "cups", "tbsp", "tablespoon", "tablespoons",
   "tsp", "teaspoon", "teaspoons", "ml", "milliliter", "piece", "pieces",
   "slice", "slices"]

/-- C8: `convert_to_grams` maps `(2, "kg")` to `2000` and `(1, "cup")` to `240`,
and for every unit outside the supported vocabulary (e.g. `"unknownunit"`) it
returns the quantity unchanged; the function is total, so no error is ever raised. -/
theorem claim_C8_convert_to_grams :
    convert_to_grams 2 "kg" = 2000 ∧ convert_to_grams 1 "cup" = 240 ∧
    convert_to_grams 3 "unknownunit" = 3 ∧
    (∀ (q : ℚ) (u : String), pyLower u ∉ supported_units → convert_to_grams q u = q) := by
  refine ⟨by decide, by decide, by decide, ?_⟩
  intro q u h
  rw [supported_units] at h
  simp only [List.mem_cons, List.not_mem_nil, or_false, not_or] at h
  simp only [convert_to_grams]
  split_ifs with g1 g2 g3 g4 g5 g6 g7 g8 g9 <;> try rfl
  all_goals (simp only [List.mem_cons, List.not_mem_nil, or_false] at *; tauto)

/-- Witness for C8 at the concrete unsupported unit `"unknownunit"`. -/
theorem claim_C8_witness :
    pyLower "unknownunit" ∉ supported_units ∧ convert_to_grams 3 "unknownunit" = 3 :=
  ⟨by decide, claim_C8_convert_to_grams.2.2.2 3 "unknownunit" (by decide)⟩

/-- C7: `parse_ingredient` maps `"200g chicken breast"` to `(200, "g", "chicken
breast")` and `"1 1/2 cups flour"` to `(1.5, "cups", "flour")`; a line with no
leading number such as `"salt"` yields `(1, "", lower-cased line)`; a token of a
matched numeric segment that fails to parse contributes `1.0` to the quantity sum
(e.g. the division-by-zero token in `"1 1/0 cups flour"`), and the returned
quantity is never negative. -/
theorem claim_C7_parse_ingredient :
    parse_ingredient "200g chicken breast" = (200, "g", "chicken breast") ∧
    parse_ingredient "1 1/2 cups flour" = (3/2, "cups", "flour") ∧
    parse_ingredient "salt" = (1, "", "salt") ∧
    parse_ingredient "1 1/0 cups flour" = (2, "cups", "flour") ∧
    (∀ s : String, 0 ≤ (parse_ingredient s).1) ∧
    (∀ t : List Char, ¬ t.contains '/' → parseFloatTok t = none → tokenQty t = 1) := by
  refine ⟨by decide, by decide, by decide, by decide, ?_, ?_⟩
  · intro s
    simp only [parse_ingredient]
    cases h : regexTry (pyStripList s.toList) (pyStripList s.toList).length with
    | none => norm_num
    | some g =>
      obtain ⟨g1, g2, g3⟩ := g
      simpa using foldl_add_tokenQty_nonneg (splitWs g1) 0 le_rfl
  · intro t h1 h2
    unfold tokenQty
    rw [if_neg h1, h2]
    rfl

/-- Witness for C7's conditional token clause at the unparsable token `"."`. -/
theorem claim_C7_witness :
    ¬ (['.'] : List Char).contains '/' ∧ parseFloatTok ['.'] = none ∧ tokenQty ['.'] = 1 :=
  ⟨by decide, by decide,
   claim_C7_parse_ingredient.2.2.2.2.2 ['.'] (by decide) (by decide)⟩

/-! ## Claims C5 and C4 -/

/-- C5: resolving any name of the ice/water alias family returns all-zero
nutrition for every quantity and unit.  `"ice"`, `"ice cube"` and `"ice cubes"`
short-circuit in the explicit alias list; `"water"` matches the all-zero
`standard_nutrition` entry, so every field is `round2 (0 * factor) = 0`. -/
theorem claim_C5_ice_water (usda : String → Option UsdaData) (q : ℚ) (u : String)
    (name : String) (hn : name ∈ ["ice", "ice cube", "ice cubes", "water"]) :
    get_food_nutrition usda name q u = ⟨0, 0, 0, 0⟩ := by
  simp only [List.mem_cons, List.not_mem_nil, or_false] at hn
  rcases hn with rfl | rfl | rfl | rfl
  · rfl
  · rfl
  · rfl
  · unfold get_food_nutrition
    norm_num [show findStd (pyStrip (pyLower "water")) = some ("water", ⟨0, 0, 0, 0⟩) from rfl]
    exact fun _ => round2_zero

/-- Witness for C5 at `"water"` with quantity 3 and unit `"cup"`. -/
theorem claim_C5_witness :
    "water" ∈ ["ice", "ice cube", "ice cubes", "water"] ∧
    get_food_nutrition (fun _ => none) "water" 3 "cup" = ⟨0, 0, 0, 0⟩ :=
  ⟨by decide, claim_C5_ice_water (fun _ => none) 3 "cup" "water" (by decide)⟩

/-- C4: resolving `"coca-cola"` with empty unit yields calories
`round2 (37.5 * 3.3) = 123.75` for every quantity (the factor is pinned to one
330 ml can), and for every quantity and unit the result is the `"cola"` table
entry scaled by some factor that never exceeds 10. -/
theorem claim_C4_cola (usda : String → Option UsdaData) :
    (∀ amount : ℚ, get_food_nutrition usda "coca-cola" amount "" =
       ⟨12375/100, 0, 0, 3498/100⟩) ∧
    (∀ (amount : ℚ) (unit : String), ∃ f : ℚ, f ≤ 10 ∧
       get_food_nutrition usda "coca-cola" amount unit =
         ⟨round2 (75/2 * f), round2 (0 * f), round2 (0 * f), round2 (53/5 * f)⟩) := by
  constructor
  · intro amount
    unfold get_food_nutrition
    rw [if_neg (by decide : ¬ pyStrip (pyLower "coca-cola") ∈ ice_aliases)]
    rw [show findStd (pyStrip (pyLower "coca-cola")) = some ("cola", ⟨75/2, 0, 0, 53/5⟩)
          from rfl]
    norm_num [std_factor,
      show strContains (pyStrip (pyLower "coca-cola")) "cola" = true from rfl]
    refine ⟨by decide, by decide, by decide⟩
  · intro amount unit
    by_cases hu : unit = ""
    · subst hu
      refine ⟨33/10, by norm_num, ?_⟩
      unfold get_food_nutrition
      rw [if_neg (by decide : ¬ pyStrip (pyLower "coca-cola") ∈ ice_aliases)]
      rw [show findStd (pyStrip (pyLower "coca-cola")) = some ("cola", ⟨75/2, 0, 0, 53/5⟩)
            from rfl]
      norm_num [std_factor,
        show strContains (pyStrip (pyLower "coca-cola")) "cola" = true from rfl]
    · simp only [get_food_nutrition,
        show findStd (pyStrip (pyLower "coca-cola")) = some ("cola", ⟨75/2, 0, 0, 53/5⟩)
          from rfl]
      rw [if_neg (by decide : ¬ pyStrip (pyLower "coca-cola") ∈ ice_aliases),
          if_pos hu]
      simp only [std_factor, show strContains "coca-cola" "cola" = true from rfl,
        Bool.true_or, if_pos, if_neg hu]
      set f0 := convert_to_grams amount unit / 100 with hf0
      by_cases hf : f0 > 10
      · rw [if_pos hf, min_eq_right hf.le]
        exact ⟨10, le_refl 10, rfl⟩
      · rw [if_neg hf]
        exact ⟨f0, le_of_not_lt hf, rfl⟩

/-! ## Claim C6: the "ice" shadowing quirk -/

theorem std_match_false_of {key food sub : String}
    (hk : strContains food key = false) (hs : strContains food sub = true)
    (hks : strContains key sub = false) : std_match key food = false := by
  unfold std_match
  cases hb : key == food with
  | true =>
    have hbe : key = food := by simpa using hb
    subst hbe
    rw [strContains_self] at hk
    cases hk
  | false =>
    rw [hk]
    cases hkf : strContains key food with
    | true =>
      have := strContains_trans hkf hs
      rw [hks] at this
      cases this
    | false => rfl

/-- If a (lower-cased, stripped) food name contains `"ice"` but none of the four
table keys that precede `"ice"`, the `standard_nutrition` scan stops at the
all-zero `"ice"` entry. -/
theorem findStd_ice_of_contains {food : String}
    (hice : strContains food "ice" = true)
    (hcoke : strContains food "coke" = false)
    (hcola : strContains food "cola" = false)
    (hpepsi : strContains food "pepsi" = false) :
    findStd food = some ("ice", ⟨0, 0, 0, 0⟩) := by
  have hcoca : strContains food "coca-cola" = false := by
    cases h : strContains food "coca-cola" with
    | true =>
      have := strContains_trans h (by decide : strContains "coca-cola" "cola" = true)
      rw [hcola] at this
      cases this
    | false => rfl
  have e1 : std_match "coke" food = false := std_match_false_of hcoke hice (by decide)
  have e2 : std_match "cola" food = false := std_match_false_of hcola hice (by decide)
  have e3 : std_match "coca-cola" food = false := std_match_false_of hcoca hice (by decide)
  have e4 : std_match "pepsi" food = false := std_match_false_of hpepsi hice (by decide)
  have e5 : std_match "ice" food = true := by simp [std_match, hice]
  simp [findStd, standard_nutrition, List.find?_cons, e1, e2, e3, e4, e5]

/-- Counterexample to C6's universal clause: `"iced coke"` contains `"ice"` yet
resolves to the cola-family values, not to zero, because the `"coke"` entry is
scanned first. -/
theorem claim_C6_counterexample :
    strContains (pyStrip (pyLower "iced coke")) "ice" = true ∧
    get_food_nutrition (fun _ => none) "iced coke" 1 "" = ⟨12375/100, 0, 0, 3498/100⟩ ∧
    (12375/100 : ℚ) ≠ 0 :=
  ⟨by decide, by decide, by norm_num⟩

/-- C6 (amended): `"rice"` resolves to all-zero nutrition for every quantity and
unit because the zero `"ice"` entry matches it by substring containment before
the dedicated `"rice"` entry is reached; the dish-name bypass gives `"fried
rice"` an all-zero total for every ingredient list; and the same shadowing
happens for every name containing `"ice"` provided no earlier table key
(`coke`, `cola`, `coca-cola`, `pepsi`) matches it. -/
theorem claim_C6_ice_shadowing :
    (∀ (usda : String → Option UsdaData) (q : ℚ) (u : String),
       get_food_nutrition usda "rice" q u = ⟨0, 0, 0, 0⟩) ∧
    (∀ (usda : String → Option UsdaData) (ings : List String),
       (analyze_ingredients_list usda ings "fried rice").total_nutrition = ⟨0, 0, 0, 0⟩) ∧
    (∀ (usda : String → Option UsdaData) (q : ℚ) (u : String) (food : String),
       strContains (pyStrip (pyLower food)) "ice" = true →
       strContains (pyStrip (pyLower food)) "coke" = false →
       strContains (pyStrip (pyLower food)) "cola" = false →
       strContains (pyStrip (pyLower food)) "pepsi" = false →
       get_food_nutrition usda food q u = ⟨0, 0, 0, 0⟩) := by
  refine ⟨?_, ?_, ?_⟩
  · intro usda q u
    unfold get_food_nutrition
    norm_num [show findStd (pyStrip (pyLower "rice")) = some ("ice", ⟨0, 0, 0, 0⟩) from rfl]
    exact fun _ => round2_zero
  · intro usda ings
    simp only [analyze_ingredients_list,
      show findStd (pyLower "fried rice") = some ("ice", ⟨0, 0, 0, 0⟩) from rfl]
    norm_num [round2_zero]
  · intro usda q u food hice hcoke hcola hpepsi
    unfold get_food_nutrition
    by_cases hmem : pyStrip (pyLower food) ∈ ice_aliases
    · rw [if_pos hmem]
    · rw [if_neg hmem, findStd_ice_of_contains hice hcoke hcola hpepsi]
      norm_num [round2_zero]

/-- Witness for C6's conditional clause at the concrete name `"juice"`. -/
theorem claim_C6_witness :
    strContains (pyStrip (pyLower "juice")) "ice" = true ∧
    get_food_nutrition (fun _ => none) "juice" 4 "cup" = ⟨0, 0, 0, 0⟩ :=
  ⟨by decide,
   claim_C6_ice_shadowing.2.2 (fun _ => none) 4 "cup" "juice"
     (by decide) (by decide) (by decide) (by decide)⟩

/-! ## Claim C1: the resolver always returns four non-negative values -/

theorem std_factor_nonneg {food unit : String} {f : ℚ} (h : 0 ≤ f) :
    0 ≤ std_factor food unit f := by
  simp only [std_factor]
  split_ifs <;> first
    | assumption
    | exact le_min h (by norm_num)
    | exact le_min (by norm_num) (by norm_num)
    | norm_num

theorem generic_nutrition_estimate_nonneg (food : String) {f : ℚ} (h : 0 ≤ f) :
    0 ≤ (generic_nutrition_estimate food f).calories ∧
    0 ≤ (generic_nutrition_estimate food f).protein ∧
    0 ≤ (generic_nutrition_estimate food f).fat ∧
    0 ≤ (generic_nutrition_estimate food f).carbs := by
  have hrf : 0 ≤ min f 8 := le_min h (by norm_num)
  simp only [generic_nutrition_estimate]
  refine ⟨?_, ?_, ?_, ?_⟩ <;>
    (apply round2_nonneg; apply mul_nonneg _ hrf; split_ifs <;> norm_num)

/-- C1: for every food name, non-negative quantity, and unit, and for any
external lookup that returns non-negative per-100g data, `get_food_nutrition`
returns a (total, four-field) record whose fields are all non-negative; the
function is total by construction, so it never raises, and the heuristic
fallback makes the `none`/`none` lookup case return a value too. -/
theorem claim_C1_resolve_nonneg (usda : String → Option UsdaData)
    (hu : ∀ s dd, usda s = some dd →
        0 ≤ dd.calories ∧ 0 ≤ dd.protein ∧ 0 ≤ dd.fat ∧ 0 ≤ dd.carbs)
    (food : String) (amount : ℚ) (unit : String) (hq : 0 ≤ amount) :
    0 ≤ (get_food_nutrition usda food amount unit).calories ∧
    0 ≤ (get_food_nutrition usda food amount unit).protein ∧
    0 ≤ (get_food_nutrition usda food amount unit).fat ∧
    0 ≤ (get_food_nutrition usda food amount unit).carbs := by
  have hfac : 0 ≤ (if unit ≠ "" then convert_to_grams amount unit else amount * 100) / 100 := by
    apply div_nonneg _ (by norm_num)
    split_ifs
    · exact convert_to_grams_nonneg hq unit
    · exact mul_nonneg hq (by norm_num)
  set fac : ℚ := (if unit ≠ "" then convert_to_grams amount unit else amount * 100) / 100
    with hfacdef
  suffices H : ∀ n, get_food_nutrition usda food amount unit = n →
      0 ≤ n.calories ∧ 0 ≤ n.protein ∧ 0 ≤ n.fat ∧ 0 ≤ n.carbs from H _ rfl
  intro n hn
  simp only [get_food_nutrition, ← hfacdef] at hn
  split_ifs at hn with hmem
  · rw [← hn]
    norm_num
  · cases hstd : findStd (pyStrip (pyLower food)) with
    | some kv =>
      obtain ⟨key, std⟩ := kv
      rw [hstd] at hn
      simp only at hn
      have hstdv := standard_nutrition_nonneg _ (List.mem_of_find?_eq_some hstd)
      have hsf : 0 ≤ std_factor (pyStrip (pyLower food)) unit fac := std_factor_nonneg hfac
      rw [← hn]
      exact ⟨round2_nonneg (mul_nonneg hstdv.1 hsf),
             round2_nonneg (mul_nonneg hstdv.2.1 hsf),
             round2_nonneg (mul_nonneg hstdv.2.2.1 hsf),
             round2_nonneg (mul_nonneg hstdv.2.2.2 hsf)⟩
    | none =>
      rw [hstd] at hn
      simp only at hn
      cases husda : usda (pyStrip (pyLower food)) with
      | some d =>
        rw [husda] at hn
        simp only at hn
        obtain ⟨hc, hp, hf, hb⟩ := hu _ _ husda
        set cat := identify_food_category (pyStrip (pyLower food)) d.calories with hcat
        have hrange := calorie_range_nonneg cat
        split_ifs at hn
        · -- implausible-outlier branch
          have hadj : 0 ≤ ((calorie_range_of cat).1 + (calorie_range_of cat).2) / 2 :=
            div_nonneg (add_nonneg hrange.1 hrange.2) (by norm_num)
          have hscale : 0 ≤ ((calorie_range_of cat).1 + (calorie_range_of cat).2) / 2 /
              max d.calories 1 :=
            div_nonneg hadj (le_trans zero_le_one (le_max_right _ _))
          rw [← hn]
          exact ⟨round2_nonneg (mul_nonneg hadj hfac),
                 round2_nonneg (mul_nonneg (mul_nonneg hp hscale) hfac),
                 round2_nonneg (mul_nonneg (mul_nonneg hf hscale) hfac),
                 round2_nonneg (mul_nonneg (mul_nonneg hb hscale) hfac)⟩
        · -- clamped branch
          have hrf : 0 ≤ min fac (get_reasonable_max_factor cat) :=
            le_min hfac (max_factor_pos _).le
          rw [← hn]
          exact ⟨round2_nonneg (mul_nonneg hc hrf),
                 round2_nonneg (mul_nonneg hp hrf),
                 round2_nonneg (mul_nonneg hf hrf),
                 round2_nonneg (mul_nonneg hb hrf)⟩
      | none =>
        rw [husda] at hn
        simp only at hn
        rw [← hn]
        exact generic_nutrition_estimate_nonneg _ hfac

/-- Witness for C1 at an unresolvable food name with an empty lookup: the
heuristic fallback still returns a (non-negative) value. -/
theorem claim_C1_witness :
    (∀ (s : String) (dd : UsdaData), (fun _ : String => (none : Option UsdaData)) s = some dd →
        0 ≤ dd.calories ∧ 0 ≤ dd.protein ∧ 0 ≤ dd.fat ∧ 0 ≤ dd.carbs) ∧
    (0 : ℚ) ≤ 2 ∧
    get_food_nutrition (fun _ : String => none) "mystery stew" 2 "" = ⟨200, 10, 10, 20⟩ ∧
    0 ≤ (get_food_nutrition (fun _ : String => none) "mystery stew" 2 "").calories ∧
    0 ≤ (get_food_nutrition (fun _ : String => none) "mystery stew" 2 "").protein ∧
    0 ≤ (get_food_nutrition (fun _ : String => none) "mystery stew" 2 "").fat ∧
    0 ≤ (get_food_nutrition (fun _ : String => none) "mystery stew" 2 "").carbs := by
  have h := claim_C1_resolve_nonneg (fun _ : String => none) (fun s dd hsd => by cases hsd)
    "mystery stew" 2 "" (by norm_num)
  refine ⟨?_, ?_, ?_, ?_, ?_, ?_, ?_⟩
  · intro s dd hsd
    cases hsd
  · norm_num
  · decide
  · exact h.1
  · exact h.2.1
  · exact h.2.2.1
  · exact h.2.2.2

/-! ## Claim C3: external-lookup plausibility handling -/

/-- C3: when no known-food entry matches and the external lookup returns data
`d`, the resolver classifies a category, and: if `d.calories` lies below half
the category range's minimum or above twice its maximum, the result is the
range midpoint times the factor for calories and the returned macros rescaled
by `midpoint / max d.calories 1` times the factor; otherwise the factor is
clamped to the category's `maxFactor` and the per-100g values are scaled by the
clamped factor; all fields rounded to 2 decimals.  The `maxFactor` table is
meat 5, grain 8, vegetable 10, fruit 6, dairy 8, oil 2, beverage 15, unknown 10. -/
theorem claim_C3_usda_branch (usda : String → Option UsdaData)
    (fn : String) (amount : ℚ) (unit : String) (d : UsdaData)
    (hice : pyStrip (pyLower fn) ∉ ice_aliases)
    (hstd : findStd (pyStrip (pyLower fn)) = none)
    (hud : usda (pyStrip (pyLower fn)) = some d) :
    ((d.calories < (calorie_range_of
          (identify_food_category (pyStrip (pyLower fn)) d.calories)).1 * (1/2) ∨
      d.calories > (calorie_range_of
          (identify_food_category (pyStrip (pyLower fn)) d.calories)).2 * 2) →
      get_food_nutrition usda fn amount unit =
        ⟨round2 (((calorie_range_of (identify_food_category (pyStrip (pyLower fn)) d.calories)).1 +
            (calorie_range_of (identify_food_category (pyStrip (pyLower fn)) d.calories)).2) / 2 *
            ((if unit ≠ "" then convert_to_grams amount unit else amount * 100) / 100)),
         round2 (d.protein * (((calorie_range_of (identify_food_category (pyStrip (pyLower fn)) d.calories)).1 +
            (calorie_range_of (identify_food_category (pyStrip (pyLower fn)) d.calories)).2) / 2 /
            max d.calories 1) *
            ((if unit ≠ "" then convert_to_grams amount unit else amount * 100) / 100)),
         round2 (d.fat * (((calorie_range_of (identify_food_category (pyStrip (pyLower fn)) d.calories)).1 +
            (calorie_range_of (identify_food_category (pyStrip (pyLower fn)) d.calories)).2) / 2 /
            max d.calories 1) *
            ((if unit ≠ "" then convert_to_grams amount unit else amount * 100) / 100)),
         round2 (d.carbs * (((calorie_range_of (identify_food_category (pyStrip (pyLower fn)) d.calories)).1 +
            (calorie_range_of (identify_food_category (pyStrip (pyLower fn)) d.calories)).2) / 2 /
            max d.calories 1) *
            ((if unit ≠ "" then convert_to_grams amount unit else amount * 100) / 100))⟩) ∧
    (¬ (d.calories < (calorie_range_of
          (identify_food_category (pyStrip (pyLower fn)) d.calories)).1 * (1/2) ∨
        d.calories > (calorie_range_of
          (identify_food_category (pyStrip (pyLower fn)) d.calories)).2 * 2) →
      get_food_nutrition usda fn amount unit =
        ⟨round2 (d.calories * min ((if unit ≠ "" then convert_to_grams amount unit else amount * 100) / 100)
            (get_reasonable_max_factor (identify_food_category (pyStrip (pyLower fn)) d.calories))),
         round2 (d.protein * min ((if unit ≠ "" then convert_to_grams amount unit else amount * 100) / 100)
            (get_reasonable_max_factor (identify_food_category (pyStrip (pyLower fn)) d.calories))),
         round2 (d.fat * min ((if unit ≠ "" then convert_to_grams amount unit else amount * 100) / 100)
            (get_reasonable_max_factor (identify_food_category (pyStrip (pyLower fn)) d.calories))),
         round2 (d.carbs * min ((if unit ≠ "" then convert_to_grams amount unit else amount * 100) / 100)
            (get_reasonable_max_factor (identify_food_category (pyStrip (pyLower fn)) d.calories)))⟩) ∧
    (get_reasonable_max_factor "meat" = 5 ∧ get_reasonable_max_factor "grain" = 8 ∧
     get_reasonable_max_factor "vegetable" = 10 ∧ get_reasonable_max_factor "fruit" = 6 ∧
     get_reasonable_max_factor "dairy" = 8 ∧ get_reasonable_max_factor "oil" = 2 ∧
     get_reasonable_max_factor "beverage" = 15 ∧ get_reasonable_max_factor "unknown" = 10) := by
  refine ⟨?_, ?_, by decide⟩
  · intro hcond
    simp only [get_food_nutrition]
    rw [if_neg hice, hstd]
    simp only []
    rw [hud]
    simp only []
    rw [if_pos hcond]
  · intro hcond
    simp only [get_food_nutrition]
    rw [if_neg hice, hstd]
    simp only []
    rw [hud]
    simp only []
    rw [if_neg hcond]

/-- Witness for C3 at `"zucchini"` (density-classified as vegetable, in-range
data, so the clamp branch applies; factor 1, category maxFactor 10). -/
theorem claim_C3_witness :
    pyStrip (pyLower "zucchini") ∉ ice_aliases ∧
    findStd (pyStrip (pyLower "zucchini")) = none ∧
    (fun s : String => if s = "zucchini" then some (⟨17, 1, 0, 3⟩ : UsdaData) else none)
      (pyStrip (pyLower "zucchini")) = some ⟨17, 1, 0, 3⟩ ∧
    get_food_nutrition
      (fun s : String => if s = "zucchini" then some ⟨17, 1, 0, 3⟩ else none)
      "zucchini" 1 "" = ⟨17, 1, 0, 3⟩ := by
  have h := (claim_C3_usda_branch
    (fun s : String => if s = "zucchini" then some ⟨17, 1, 0, 3⟩ else none)
    "zucchini" 1 "" ⟨17, 1, 0, 3⟩ (by decide) (by decide) (by decide)).2.1 (by decide)
  refine ⟨by decide, by decide, by decide, ?_⟩
  rw [h]
  decide

/-! ## Claim C2: dish-level aggregation invariant -/

theorem reasonable_upper_limit_pos (d : String) : 0 < reasonable_upper_limit d := by
  unfold reasonable_upper_limit
  split_ifs <;> norm_num

theorem round2_upper_limit (d : String) :
    round2 (reasonable_upper_limit d) = reasonable_upper_limit d := by
  unfold reasonable_upper_limit
  split_ifs <;> decide

theorem sum_scale_calories (a : ℚ) (l : List Detail) :
    sumCalories (l.map (scaleDetail a)) = sumCalories l * a := by
  induction l with
  | nil => simp [sumCalories]
  | cons d rest ih =>
    simp only [sumCalories, List.map_cons, List.sum_cons, scaleDetail] at *
    rw [ih]
    ring

theorem sum_scale_protein (a : ℚ) (l : List Detail) :
    sumProtein (l.map (scaleDetail a)) = sumProtein l * a := by
  induction l with
  | nil => simp [sumProtein]
  | cons d rest ih =>
    simp only [sumProtein, List.map_cons, List.sum_cons, scaleDetail] at *
    rw [ih]
    ring

theorem sum_scale_fat (a : ℚ) (l : List Detail) :
    sumFat (l.map (scaleDetail a)) = sumFat l * a := by
  induction l with
  | nil => simp [sumFat]
  | cons d rest ih =>
    simp only [sumFat, List.map_cons, List.sum_cons, scaleDetail] at *
    rw [ih]
    ring

theorem sum_scale_carbs (a : ℚ) (l : List Detail) :
    sumCarbs (l.map (scaleDetail a)) = sumCarbs l * a := by
  induction l with
  | nil => simp [sumCarbs]
  | cons d rest ih =>
    simp only [sumCarbs, List.map_cons, List.sum_cons, scaleDetail] at *
    rw [ih]
    ring

/-- C2: the reported `total_nutrition` of `_analyze_ingredients_list` equals the
element-wise sum of the reported ingredient rows up to 2-decimal rounding (in
every branch); and whenever the dish name has no known-food bypass and the raw
calorie sum exceeds twice the dish-type ceiling (default 1200; curry 900;
mac-and-cheese 700; salad 500; soup 400), every ingredient row is rescaled by
`ceiling / rawTotal` and the reported total calories equal exactly the ceiling. -/
theorem claim_C2_totals (usda : String → Option UsdaData)
    (ing_list : List String) (dish_name : String) :
    ((analyze_ingredients_list usda ing_list dish_name).total_nutrition.calories =
       round2 (sumCalories (analyze_ingredients_list usda ing_list dish_name).ingredients) ∧
     (analyze_ingredients_list usda ing_list dish_name).total_nutrition.protein =
       round2 (sumProtein (analyze_ingredients_list usda ing_list dish_name).ingredients) ∧
     (analyze_ingredients_list usda ing_list dish_name).total_nutrition.fat =
       round2 (sumFat (analyze_ingredients_list usda ing_list dish_name).ingredients) ∧
     (analyze_ingredients_list usda ing_list dish_name).total_nutrition.carbs =
       round2 (sumCarbs (analyze_ingredients_list usda ing_list dish_name).ingredients)) ∧
    (findStd (pyLower dish_name) = none →
     sumCalories (ing_list.map (ingredient_detail usda)) >
       2 * reasonable_upper_limit (pyLower dish_name) →
     (analyze_ingredients_list usda ing_list dish_name).ingredients =
       (ing_list.map (ingredient_detail usda)).map
         (scaleDetail (reasonable_upper_limit (pyLower dish_name) /
           sumCalories (ing_list.map (ingredient_detail usda)))) ∧
     (analyze_ingredients_list usda ing_list dish_name).total_nutrition.calories =
       reasonable_upper_limit (pyLower dish_name)) := by
  cases hstd : findStd (pyLower dish_name) with
  | some kv =>
    obtain ⟨key, std⟩ := kv
    constructor
    · simp only [analyze_ingredients_list, hstd, sumCalories, sumProtein, sumFat, sumCarbs,
        List.map_cons, List.map_nil, List.sum_cons, List.sum_nil, add_zero]
      exact ⟨(round2_idem _).symm, (round2_idem _).symm,
             (round2_idem _).symm, (round2_idem _).symm⟩
    · intro h
      simp [hstd] at h
  | none =>
    have hlim := reasonable_upper_limit_pos (pyLower dish_name)
    constructor
    · simp only [analyze_ingredients_list, hstd]
      by_cases hc : sumCalories (ing_list.map (ingredient_detail usda)) >
          reasonable_upper_limit (pyLower dish_name) * 2
      · rw [if_pos hc]
        have htc : sumCalories (ing_list.map (ingredient_detail usda)) ≠ 0 := by
          intro h0
          rw [h0] at hc
          linarith
        have hcancel : sumCalories (ing_list.map (ingredient_detail usda)) *
            (reasonable_upper_limit (pyLower dish_name) /
             sumCalories (ing_list.map (ingredient_detail usda))) =
            reasonable_upper_limit (pyLower dish_name) := by
          field_simp
        refine ⟨?_, ?_, ?_, ?_⟩
        · rw [sum_scale_calories, hcancel]
        · rw [sum_scale_protein]
        · rw [sum_scale_fat]
        · rw [sum_scale_carbs]
      · rw [if_neg hc]
        exact ⟨rfl, rfl, rfl, rfl⟩
    · intro _ h2
      have hc : sumCalories (ing_list.map (ingredient_detail usda)) >
          reasonable_upper_limit (pyLower dish_name) * 2 := by linarith
      simp only [analyze_ingredients_list, hstd]
      rw [if_pos hc]
      exact ⟨rfl, round2_upper_limit _⟩

/-- Witness for C2's ceiling clause: a "soup" of three 200 g chicken portions
(990 raw kcal against ceiling 400) is rescaled to exactly 400 kcal. -/
theorem claim_C2_witness :
    findStd (pyLower "soup") = none ∧
    sumCalories (["200g chicken", "200g chicken", "200g chicken"].map
      (ingredient_detail (fun _ : String => none))) >
      2 * reasonable_upper_limit (pyLower "soup") ∧
    (analyze_ingredients_list (fun _ : String => none)
      ["200g chicken", "200g chicken", "200g chicken"] "soup").total_nutrition.calories = 400 := by
  have h := (claim_C2_totals (fun _ : String => none)
    ["200g chicken", "200g chicken", "200g chicken"] "soup").2 (by decide) (by decide)
  exact ⟨by decide, by decide, h.2.trans (by decide)⟩

/-! ## Claim C10: deduplication of standalone items -/

/-- `true` iff no element of the list occurs twice. -/
def namesPairwiseDistinct : List String → Bool
  | [] => true
  | x :: xs => !(xs.contains x) && namesPairwiseDistinct xs

/-- The property claimed of `process_text` results: in a combined result, no
standalone item's name equals another standalone item's name or a dish's name. -/
def standalone_dedup_ok : MealResult → Bool
  | .combined dishes others =>
    namesPairwiseDistinct (others.map (fun o => o.food)) &&
    others.all (fun o => dishes.all (fun dd => !(o.food == dd.dish_name)))
  | _ => true

/-- An extractor configuration whose dish-name extraction returns the same
non-dish name twice (duplicates are a real possibility for NER output). -/
def dup_extractors : Extractors :=
  { method := .llm, nerFoods := fun _ => [], llmFoods := fun _ => [],
    cleanEntity := id, dishNames := fun _ => ["egg", "egg"],
    dbRecipe := fun _ => none, llmRecipe := fun _ => [], usda := fun _ => none }

/-- Counterexample to C10 as stated: two identical non-dish names from the
primary extraction are both appended to the standalone list without any
deduplication, so the combined result carries an exact duplicate. -/
theorem claim_C10_counterexample :
    process_text dup_extractors "I ate eggs" true =
      .combined [] [⟨"egg", 1⟩, ⟨"egg", 1⟩] ∧
    standalone_dedup_ok (process_text dup_extractors "I ate eggs" true) = false :=
  ⟨by decide, by decide⟩

/-- C10 (amended): only items contributed by the secondary NER pass are
deduplicated, and a dish-name comparison is by substring, not exact equality:
every item that pass appends has a lower-cased name that occurs in no identified
dish name, differs from every primary standalone item's stored name, and differs
from every earlier appended item's stored name; primary standalone names are
appended without deduplication (see the counterexample). -/
theorem claim_C10_ner_dedup (dishes : List DishEntry) (others foods : List OtherFood) :
    ∃ added : List OtherFood,
      ner_dedup_pass dishes others foods = others ++ added ∧
      (∀ f ∈ added,
        (∀ dd ∈ dishes, strContains dd.dish_name (pyLower f.food) = false) ∧
        (∀ x ∈ others, (pyLower f.food == x.food) = false)) ∧
      added.Pairwise (fun a b => (pyLower b.food == a.food) = false) := by
  induction foods generalizing others with
  | nil => exact ⟨[], by simp [ner_dedup_pass], by simp, List.Pairwise.nil⟩
  | cons f fs ih =>
    rw [show ner_dedup_pass dishes others (f :: fs) =
          ner_dedup_pass dishes (ner_dedup_step dishes others f) fs from rfl]
    by_cases h1 : dishes.any (fun dd => strContains dd.dish_name (pyLower f.food)) = true
    · rw [show ner_dedup_step dishes others f = others by
        unfold ner_dedup_step; rw [if_pos h1]]
      exact ih others
    · by_cases h2 : others.any (fun x => pyLower f.food == x.food) = true
      · rw [show ner_dedup_step dishes others f = others by
          unfold ner_dedup_step; rw [if_neg h1, if_pos h2]]
        exact ih others
      · rw [show ner_dedup_step dishes others f = others ++ [f] by
          unfold ner_dedup_step; rw [if_neg h1, if_neg h2]]
        obtain ⟨added, heq, hprop, hpw⟩ := ih (others ++ [f])
        refine ⟨f :: added, ?_, ?_, ?_⟩
        · rw [heq, List.append_assoc]
          rfl
        · intro g hg
          rcases List.mem_cons.mp hg with rfl | hg'
          · refine ⟨?_, ?_⟩
            · intro dd hdd
              rw [Bool.not_eq_true, List.any_eq_false] at h1
              simpa using h1 dd hdd
            · intro x hx
              rw [Bool.not_eq_true, List.any_eq_false] at h2
              simpa using h2 x hx
          · have hgp := hprop g hg'
            exact ⟨hgp.1, fun x hx => hgp.2 x (List.mem_append_left _ hx)⟩
        · refine List.Pairwise.cons ?_ hpw
          intro b hb
          exact (hprop b hb).2 f (by simp)

/-- Witness for C10's amended statement at a concrete pass: one dish, one
pre-existing standalone item and two extracted items, of which one duplicates
the standalone item and is dropped. -/
theorem claim_C10_witness :
    ∃ added : List OtherFood,
      ner_dedup_pass [⟨"chicken soup", [], "database"⟩] [⟨"egg", 1⟩]
        [⟨"egg", 2⟩, ⟨"tofu", 1⟩] = [⟨"egg", 1⟩] ++ added ∧
      (∀ f ∈ added,
        (∀ dd ∈ [(⟨"chicken soup", [], "database"⟩ : DishEntry)],
          strContains dd.dish_name (pyLower f.food) = false) ∧
        (∀ x ∈ [(⟨"egg", 1⟩ : OtherFood)], (pyLower f.food == x.food) = false)) ∧
      added.Pairwise (fun a b => (pyLower b.food == a.food) = false) :=
  claim_C10_ner_dedup [⟨"chicken soup", [], "database"⟩] [⟨"egg", 1⟩]
    [⟨"egg", 2⟩, ⟨"tofu", 1⟩]

/-! ## Claim C9: combined-result routing -/

theorem ner_dedup_pass_all_skipped (dishes : List DishEntry) (others : List OtherFood)
    (foods : List OtherFood)
    (h : ∀ f ∈ foods,
      dishes.any (fun dd => strContains dd.dish_name (pyLower f.food)) = true ∨
      others.any (fun x => pyLower f.food == x.food) = true) :
    ner_dedup_pass dishes others foods = others := by
  induction foods with
  | nil => rfl
  | cons f fs ih =>
    rw [show ner_dedup_pass dishes others (f :: fs) =
          ner_dedup_pass dishes (ner_dedup_step dishes others f) fs from rfl]
    have hstep : ner_dedup_step dishes others f = others := by
      unfold ner_dedup_step
      rcases h f (List.mem_cons_self _ _) with h1 | h2
      · rw [if_pos h1]
      · split_ifs with hd <;> rfl
    rw [hstep]
    exact ih (fun g hg => h g (List.mem_cons_of_mem _ hg))

/-- C9: if extraction yields exactly one dish name (whose recipe-store lookup
returns a non-empty ingredient list) and one non-dish name, and the secondary
NER pass adds nothing new, `process_text` returns a Combined result with exactly
one dish entry and exactly one standalone entry; if it yields exactly the one
dish name and nothing else, `process_text` returns the bare dish result. -/
theorem claim_C9_routing (E : Extractors) (text d s title : String) (ings : List String)
    (hpd : is_probably_dish d = true)
    (hdb : E.dbRecipe d = some (title, ings))
    (hne : ings ≠ []) :
    (E.dishNames text = [d, s] →
     is_probably_dish s = false →
     (∀ f ∈ E.nerFoods text,
        strContains (if title = "" then d else title) (pyLower f.food) = true ∨
        (pyLower f.food == s) = true) →
     process_text E text true =
       .combined [⟨if title = "" then d else title,
                   (classify_ingredients ings).1 ++ (classify_ingredients ings).2, "database"⟩]
         [⟨s, 1⟩]) ∧
    (E.dishNames text = [d] →
     (∀ f ∈ E.nerFoods text,
        strContains (if title = "" then d else title) (pyLower f.food) = true) →
     process_text E text true =
       .dish ⟨if title = "" then d else title,
              (classify_ingredients ings).1 ++ (classify_ingredients ings).2, "database"⟩) := by
  have hie : ings.isEmpty = false := by
    cases ings with
    | nil => exact absurd rfl hne
    | cons a l => rfl
  have hstep : ∀ acc : List DishEntry × List OtherFood,
      dishStep E acc d =
        (acc.1 ++ [⟨if title = "" then d else title,
          (classify_ingredients ings).1 ++ (classify_ingredients ings).2, "database"⟩], acc.2) := by
    intro acc
    unfold dishStep
    rw [hpd, hdb]
    simp only [if_true, hie, Bool.false_eq_true, if_false]
  constructor
  · intro hdn hps hner
    unfold process_text
    rw [hdn]
    simp only [List.isEmpty_cons, Bool.not_true, Bool.or_false, Bool.false_eq_true,
      if_false, List.foldl_cons, List.foldl_nil, hstep, List.nil_append]
    rw [show dishStep E
        ([⟨if title = "" then d else title,
           (classify_ingredients ings).1 ++ (classify_ingredients ings).2, "database"⟩], [])
        s =
        ([⟨if title = "" then d else title,
           (classify_ingredients ings).1 ++ (classify_ingredients ings).2, "database"⟩],
         [⟨s, 1⟩]) by
      unfold dishStep
      rw [hps]
      simp]
    by_cases hm : E.method = Method.llm
    · simp only [hm, ne_eq, not_true_eq_false, if_false]
    · rw [if_pos hm]
      rw [ner_dedup_pass_all_skipped]
      intro f hf
      rcases hner f hf with h1 | h2
      · left
        simp [h1]
      · right
        simp [h2]
  · intro hdn hner
    unfold process_text
    rw [hdn]
    simp only [List.isEmpty_cons, Bool.not_true, Bool.or_false, Bool.false_eq_true,
      if_false, List.foldl_cons, List.foldl_nil, hstep, List.nil_append]
    by_cases hm : E.method = Method.llm
    · simp only [hm, ne_eq, not_true_eq_false, if_false]
    · rw [if_pos hm]
      rw [ner_dedup_pass_all_skipped]
      intro f hf
      left
      simp [hner f hf]

/-- Witness for C9 at a concrete extractor configuration: one database-resolved
dish (`"chicken soup"`) plus the standalone `"egg"` produce a combined result;
the dish alone produces the bare dish result. -/
theorem claim_C9_witness :
    (process_text
      { method := .hybrid, nerFoods := fun _ => [], llmFoods := fun _ => [],
        cleanEntity := id, dishNames := fun _ => ["chicken soup", "egg"],
        dbRecipe := fun _ => some ("chicken soup", ["200g chicken", "1 cup water"]),
        llmRecipe := fun _ => [], usda := fun _ => none } "dinner" true =
      .combined [⟨"chicken soup", ["200g chicken", "1 cup water"], "database"⟩]
        [⟨"egg", 1⟩]) ∧
    (process_text
      { method := .hybrid, nerFoods := fun _ => [], llmFoods := fun _ => [],
        cleanEntity := id, dishNames := fun _ => ["chicken soup"],
        dbRecipe := fun _ => some ("chicken soup", ["200g chicken", "1 cup water"]),
        llmRecipe := fun _ => [], usda := fun _ => none } "dinner" true =
      .dish ⟨"chicken soup", ["200g chicken", "1 cup water"], "database"⟩) := by
  constructor
  · have h := (claim_C9_routing
      { method := .hybrid, nerFoods := fun _ => [], llmFoods := fun _ => [],
        cleanEntity := id, dishNames := fun _ => ["chicken soup", "egg"],
        dbRecipe := fun _ => some ("chicken soup", ["200g chicken", "1 cup water"]),
        llmRecipe := fun _ => [], usda := fun _ => none }
      "dinner" "chicken soup" "egg" "chicken soup" ["200g chicken", "1 cup water"]
      (by decide) rfl (by decide)).1 rfl (by decide) (by intro f hf; cases hf)
    rw [h]
    decide
  · have h := (claim_C9_routing
      { method := .hybrid, nerFoods := fun _ => [], llmFoods := fun _ => [],
        cleanEntity := id, dishNames := fun _ => ["chicken soup"],
        dbRecipe := fun _ => some ("chicken soup", ["200g chicken", "1 cup water"]),
        llmRecipe := fun _ => [], usda := fun _ => none }
      "dinner" "chicken soup" "egg" "chicken soup" ["200g chicken", "1 cup water"]
      (by decide) rfl (by decide)).2 rfl (by intro f hf; cases hf)
    rw [h]
    decide

end NutritionPipeline
